import Mathlib

/-!
Verification of the New Relic AI-monitoring telemetry adapter
(litellm/integrations/newrelic/newrelic.py) against its specification.

The Python module is shallowly embedded: each helper method of
NewRelicLogger becomes a pure Lean function over explicit inputs, with the
loosely typed Python payloads (dicts, JSON values) modelled by explicit
structures and an inductive JSON value type.  Python truthiness, the
get-with-default idiom and key-presence are modelled explicitly where the
code relies on them.
-/

namespace NewRelicSpec

/-! ### Characters used by the JSON serializer

Named characters avoid escape sequences: quote (34), backslash (92),
left and right curly brace (123, 125), single quote (39). -/

def quoteChar : Char := Char.ofNat 34

def backslashChar : Char := Char.ofNat 92

def lbraceChar : Char := Char.ofNat 123

def rbraceChar : Char := Char.ofNat 125

def squoteChar : Char := Char.ofNat 39

/-! ### JSON-like Python values

Model of the loosely typed values (message content, tool_calls payloads)
that flow into the adapter.  Arrays and objects are separate mutual types
so that structural mutual recursion and induction are available. -/

mutual

inductive JValue : Type where
  | jnull : JValue
  | jbool : Bool → JValue
  | jnum : Int → JValue
  | jstr : List Char → JValue
  | jarr : JArr → JValue
  | jobj : JObj → JValue
  deriving DecidableEq

inductive JArr : Type where
  | nil : JArr
  | cons : JValue → JArr → JArr
  deriving DecidableEq

inductive JObj : Type where
  | nil : JObj
  | cons : List Char → JValue → JObj → JObj
  deriving DecidableEq

end

/-- Python truthiness of a JSON-like value: None, False, 0, empty string,
empty list and empty dict are falsy, everything else is truthy. -/
def jtruthy : JValue → Bool
  | .jnull => false
  | .jbool b => b
  | .jnum n => decide (n ≠ 0)
  | .jstr s => decide (s ≠ [])
  | .jarr .nil => false
  | .jarr (.cons _ _) => true
  | .jobj .nil => false
  | .jobj (.cons _ _ _) => true

/-- Truthiness of the result of dict.get: a missing key yields None, which
is falsy. -/
def optTruthy : Option JValue → Bool
  | none => false
  | some v => jtruthy v

/-! ### Decimal digit rendering (for json.dumps of numbers) -/

/-- Character for a single decimal digit d (0 ≤ d ≤ 9). -/
def digitChar (d : Nat) : Char := Char.ofNat (48 + d)

/-- Accumulator loop producing the decimal digits of n in front of acc;
mirrors the usual division loop of a decimal printer. -/
def natDigitsGo : Nat → List Char → List Char
  | 0, acc => acc
  | n + 1, acc => natDigitsGo ((n + 1) / 10) (digitChar ((n + 1) % 10) :: acc)
  decreasing_by exact Nat.div_lt_self (Nat.succ_pos n) (by omega)

/-- Decimal digits of a natural number, "0" for zero. -/
def natDigits (n : Nat) : List Char :=
  if n = 0 then [digitChar 0] else natDigitsGo n []

/-- Decimal rendering of an integer, with a leading minus sign when
negative; mirrors the rendering json.dumps uses for Python ints. -/
def intDigits (n : Int) : List Char :=
  if n < 0 then '-' :: natDigits n.natAbs else natDigits n.toNat

/-! ### json.dumps

Embedding of json.dumps on JValue, with the default separators of the
Python standard library (", " between items, ": " after keys).  String
escaping covers the two JSON-essential escapes (quote and backslash); the
\uXXXX escaping that json.dumps additionally applies to control and
non-ASCII characters is not modelled. -/

/-- Escape a string body for JSON output: backslash-escape quote and
backslash, copy every other character. -/
def escapeStr : List Char → List Char
  | [] => []
  | c :: r =>
    if c = quoteChar ∨ c = backslashChar then backslashChar :: c :: escapeStr r
    else c :: escapeStr r

/-- Rendering of a JSON string literal: quote, escaped body, quote. -/
def dumpsStr (s : List Char) : List Char :=
  quoteChar :: escapeStr s ++ [quoteChar]

mutual

/-- Rendering of one JSON value (the char-list core of json.dumps). -/
def dumpsVal : JValue → List Char
  | .jnull => "null".toList
  | .jbool true => "true".toList
  | .jbool false => "false".toList
  | .jnum n => intDigits n
  | .jstr s => dumpsStr s
  | .jarr .nil => ['[', ']']
  | .jarr (.cons v r) => '[' :: (dumpsVal v ++ dumpsArrRest r) ++ [']']
  | .jobj .nil => [lbraceChar, rbraceChar]
  | .jobj (.cons k v r) =>
    lbraceChar :: (dumpsStr k ++ ':' :: ' ' :: dumpsVal v ++ dumpsObjRest r) ++ [rbraceChar]

/-- Rendering of the remaining array items, each preceded by ", ". -/
def dumpsArrRest : JArr → List Char
  | .nil => []
  | .cons v r => ',' :: ' ' :: dumpsVal v ++ dumpsArrRest r

/-- Rendering of the remaining object members, each preceded by ", ". -/
def dumpsObjRest : JObj → List Char
  | .nil => []
  | .cons k v r => ',' :: ' ' :: dumpsStr k ++ ':' :: ' ' :: dumpsVal v ++ dumpsObjRest r

end

/-- String-valued json.dumps. -/
def jdumps (v : JValue) : String := String.mk (dumpsVal v)

/-! ### Python str() of a JSON-like value

Used by the fallback branches of _extract_message_content.  Python repr
of lists and dicts differs from json.dumps (single quotes, True/False/None),
which is why the adapter prefers json.dumps for those payloads. -/

mutual

/-- Model of Python str() on a JSON-like value (repr for containers). -/
def pyStrVal : JValue → List Char
  | .jnull => "None".toList
  | .jbool true => "True".toList
  | .jbool false => "False".toList
  | .jnum n => intDigits n
  | .jstr s => squoteChar :: s ++ [squoteChar]
  | .jarr .nil => ['[', ']']
  | .jarr (.cons v r) => '[' :: (pyStrVal v ++ pyStrArrRest r) ++ [']']
  | .jobj .nil => [lbraceChar, rbraceChar]
  | .jobj (.cons k v r) =>
    lbraceChar ::
      ((squoteChar :: k ++ [squoteChar]) ++ ':' :: ' ' :: pyStrVal v ++ pyStrObjRest r)
      ++ [rbraceChar]

/-- Remaining list items of a Python repr. -/
def pyStrArrRest : JArr → List Char
  | .nil => []
  | .cons v r => ',' :: ' ' :: pyStrVal v ++ pyStrArrRest r

/-- Remaining dict members of a Python repr. -/
def pyStrObjRest : JObj → List Char
  | .nil => []
  | .cons k v r =>
    ',' :: ' ' :: (squoteChar :: k ++ [squoteChar]) ++ ':' :: ' ' :: pyStrVal v ++ pyStrObjRest r

end

/-- String-valued Python str(). -/
def pyStr (v : JValue) : String := String.mk (pyStrVal v)

/-! ### Chat messages

Model of one chat message dict as read by the adapter: role, content and
tool_calls, each possibly missing.  A content key holding JSON null and a
missing content key are both read back as None by dict.get; the adapter
treats them identically and the extractor below handles both alike. -/

structure Msg : Type where
  role : Option String
  content : Option JValue
  tool_calls : Option JValue
  deriving DecidableEq

/-- Embedding of NewRelicLogger._extract_message_content.  The source
reads content := message.get("content") and then branches:
tool-calls payloads (when truthy) are json.dumps-serialized; content None
or missing yields the empty string; list content is json.dumps-serialized;
other non-string content is stringified with str(); string content is
returned as is.  The except-branches around json.dumps are dead in this
model because the embedded dumps is total on JValue. -/
def extractMessageContent (message : Msg) : String :=
  if optTruthy message.tool_calls then
    match message.tool_calls with
    | some tc => jdumps tc
    | none => ""
  else
    match message.content with
    | none => ""
    | some .jnull => ""
    | some (.jarr a) => jdumps (.jarr a)
    | some (.jstr s) => String.mk s
    | some c => pyStr c

/-! ### Validity of serialized JSON

Grammar of (a subset of) RFC 8259 JSON texts, restricted to the exact
separator spelling json.dumps emits: every char list in JsonText is a
valid JSON document.  It is used to state the round-trip property: the
serialized tool_calls payload is valid JSON text. -/

/-- Nonempty run of decimal digits. -/
def DigitsText (s : List Char) : Prop := s ≠ [] ∧ ∀ c ∈ s, c.isDigit

/-- JSON number: digits, optionally preceded by a minus sign. -/
def NumText (s : List Char) : Prop :=
  DigitsText s ∨ ∃ t, s = '-' :: t ∧ DigitsText t

/-- Body of a JSON string literal: any characters, with quote and
backslash occurring only escaped. -/
inductive StrBody : List Char → Prop where
  | nil : StrBody []
  | esc : ∀ c r, StrBody r → StrBody (backslashChar :: c :: r)
  | chr : ∀ c r, c ≠ quoteChar → c ≠ backslashChar → StrBody r → StrBody (c :: r)

mutual

/-- JSON texts (with json.dumps separator spelling). -/
inductive JsonText : List Char → Prop where
  | null : JsonText ("null".toList)
  | btrue : JsonText ("true".toList)
  | bfalse : JsonText ("false".toList)
  | num : ∀ s, NumText s → JsonText s
  | str : ∀ s, StrBody s → JsonText (quoteChar :: s ++ [quoteChar])
  | arrEmpty : JsonText ['[', ']']
  | arr : ∀ s, ArrInner s → JsonText ('[' :: s ++ [']'])
  | objEmpty : JsonText [lbraceChar, rbraceChar]
  | obj : ∀ s, ObjInner s → JsonText (lbraceChar :: s ++ [rbraceChar])

/-- Comma-space separated nonempty sequence of JSON texts. -/
inductive ArrInner : List Char → Prop where
  | single : ∀ s, JsonText s → ArrInner s
  | more : ∀ s r, JsonText s → ArrInner r → ArrInner (s ++ ',' :: ' ' :: r)

/-- Comma-space separated nonempty sequence of key-colon-value members. -/
inductive ObjInner : List Char → Prop where
  | single : ∀ k v, StrBody k → JsonText v →
      ObjInner ((quoteChar :: k ++ [quoteChar]) ++ ':' :: ' ' :: v)
  | more : ∀ k v r, StrBody k → JsonText v → ObjInner r →
      ObjInner ((quoteChar :: k ++ [quoteChar]) ++ ':' :: ' ' :: v ++ ',' :: ' ' :: r)

end

theorem strBody_escapeStr (s : List Char) : StrBody (escapeStr s) := by
  induction s with
  | nil => exact .nil
  | cons c r ih =>
    by_cases h : c = quoteChar ∨ c = backslashChar
    · simpa [escapeStr, h] using StrBody.esc c _ ih
    · push_neg at h
      simpa [escapeStr, h] using StrBody.chr c _ h.1 h.2 ih

theorem digitChar_isDigit : ∀ d, d < 10 → (digitChar d).isDigit = true := by decide

theorem natDigitsGo_all_digits (n : Nat) :
    ∀ acc, (∀ c ∈ acc, c.isDigit) → ∀ c ∈ natDigitsGo n acc, c.isDigit = true := by
  induction n using Nat.strong_induction_on with
  | _ n ih =>
    intro acc hacc c hc
    match n with
    | 0 => exact hacc c (by simpa [natDigitsGo] using hc)
    | m + 1 =>
      rw [natDigitsGo] at hc
      refine ih ((m + 1) / 10) (Nat.div_lt_self (Nat.succ_pos m) (by omega)) _ ?_ c hc
      intro d hd
      rcases List.mem_cons.mp hd with h | h
      · subst h; exact digitChar_isDigit _ (Nat.mod_lt _ (by omega))
      · exact hacc d h

theorem natDigitsGo_length (n : Nat) :
    ∀ acc : List Char, acc.length ≤ (natDigitsGo n acc).length := by
  induction n using Nat.strong_induction_on with
  | _ n ih =>
    intro acc
    match n with
    | 0 => simp [natDigitsGo]
    | m + 1 =>
      rw [natDigitsGo]
      calc acc.length ≤ (digitChar ((m + 1) % 10) :: acc).length := by simp
        _ ≤ _ := ih ((m + 1) / 10) (Nat.div_lt_self (Nat.succ_pos m) (by omega)) _

theorem digitsText_natDigits (n : Nat) : DigitsText (natDigits n) := by
  by_cases h : n = 0
  · subst h
    refine ⟨by simp [natDigits], ?_⟩
    intro c hc
    rw [natDigits, if_pos rfl] at hc
    obtain rfl := List.mem_singleton.mp hc
    exact digitChar_isDigit 0 (by omega)
  · obtain ⟨m, rfl⟩ : ∃ m, n = m + 1 := ⟨n - 1, by omega⟩
    constructor
    · intro hnil
      rw [natDigits, if_neg h, natDigitsGo] at hnil
      have h2 := natDigitsGo_length ((m + 1) / 10) [digitChar ((m + 1) % 10)]
      rw [hnil] at h2
      simp at h2
    · intro c hc
      rw [natDigits, if_neg h] at hc
      exact natDigitsGo_all_digits _ [] (by simp) c hc

theorem numText_intDigits (n : Int) : NumText (intDigits n) := by
  by_cases h : n < 0
  · exact Or.inr ⟨natDigits n.natAbs, by simp [intDigits, h], digitsText_natDigits _⟩
  · exact Or.inl (by simpa [intDigits, h] using digitsText_natDigits n.toNat)

mutual

theorem jsonText_dumpsVal (v : JValue) : JsonText (dumpsVal v) := by
  match v with
  | .jnull => exact .null
  | .jbool true => exact .btrue
  | .jbool false => exact .bfalse
  | .jnum n => exact .num _ (numText_intDigits n)
  | .jstr s => exact .str _ (strBody_escapeStr s)
  | .jarr .nil => exact .arrEmpty
  | .jarr (.cons w r) =>
    have h := arrInner_dumps w r
    simpa [dumpsVal] using JsonText.arr _ h
  | .jobj .nil => exact .objEmpty
  | .jobj (.cons k w r) =>
    have h := objInner_dumps k w r
    simpa [dumpsVal] using JsonText.obj _ h
termination_by sizeOf v

theorem arrInner_dumps (v : JValue) (r : JArr) :
    ArrInner (dumpsVal v ++ dumpsArrRest r) := by
  match r with
  | .nil => simpa [dumpsArrRest] using ArrInner.single _ (jsonText_dumpsVal v)
  | .cons w r2 =>
    have h := arrInner_dumps w r2
    simpa [dumpsArrRest] using ArrInner.more _ _ (jsonText_dumpsVal v) h
termination_by sizeOf v + sizeOf r

theorem objInner_dumps (k : List Char) (v : JValue) (r : JObj) :
    ObjInner (dumpsStr k ++ ':' :: ' ' :: dumpsVal v ++ dumpsObjRest r) := by
  match r with
  | .nil =>
    simpa [dumpsObjRest, dumpsStr] using
      ObjInner.single (escapeStr k) _ (strBody_escapeStr k) (jsonText_dumpsVal v)
  | .cons k2 w r2 =>
    have h := objInner_dumps k2 w r2
    simpa [dumpsObjRest, dumpsStr] using
      ObjInner.more (escapeStr k) _ _ (strBody_escapeStr k) (jsonText_dumpsVal v) h
termination_by sizeOf v + sizeOf r

end

/-! ### Normalized messages (_extract_all_messages)

The message_data dicts built by _extract_all_messages.  Optional dict
keys are modelled with Option (none means the key is absent); the
is_response key is only ever set to True, so a Bool with false meaning
absent is faithful. -/

structure NormalizedMessage : Type where
  role : String
  sequence : Nat
  response_model : String
  vendor : String
  is_response : Bool
  timestamp : Option Int
  content : Option String
  deriving DecidableEq

/-- Model of one element of response_obj.choices: an optional message and
an optional finish_reason.  A choice whose message is missing or falsy
(message = none) is skipped by the extraction loop. -/
structure Choice : Type where
  message : Option Msg
  finish_reason : Option String
  deriving DecidableEq

/-- Body of the request-message loop of _extract_all_messages: role
defaults to "user", timestamps are converted to epoch milliseconds, and
content is attached only when the redaction policy records content. -/
def reqMessageData (rc : Bool) (response_model vendor : String)
    (startTime : Option Int) (seq : Nat) (msg : Msg) : NormalizedMessage :=
  { role := msg.role.getD "user"
    sequence := seq
    response_model := response_model
    vendor := vendor
    is_response := false
    timestamp := startTime.map (fun t => t * 1000)
    content := if rc then some (extractMessageContent msg) else none }

/-- Body of the response-choice loop of _extract_all_messages: role
defaults to "assistant", the is_response flag is set, and content is
attached only when the redaction policy records content. -/
def respMessageData (rc : Bool) (response_model vendor : String)
    (endTime : Option Int) (seq : Nat) (msg : Msg) : NormalizedMessage :=
  { role := msg.role.getD "assistant"
    sequence := seq
    response_model := response_model
    vendor := vendor
    is_response := true
    timestamp := endTime.map (fun t => t * 1000)
    content := if rc then some (extractMessageContent msg) else none }

/-- Request-message loop: one NormalizedMessage per request message, with
the running sequence counter incremented for each. -/
def extractReqMessages (rc : Bool) (rm v : String) (st : Option Int) :
    List Msg → Nat → List NormalizedMessage
  | [], _ => []
  | m :: rest, seq =>
    reqMessageData rc rm v st seq m :: extractReqMessages rc rm v st rest (seq + 1)

/-- Response-choice loop: choices without a (truthy) message are skipped
and do not advance the sequence counter. -/
def extractRespMessages (rc : Bool) (rm v : String) (et : Option Int) :
    List Choice → Nat → List NormalizedMessage
  | [], _ => []
  | c :: rest, seq =>
    match c.message with
    | some m =>
      respMessageData rc rm v et seq m :: extractRespMessages rc rm v et rest (seq + 1)
    | none => extractRespMessages rc rm v et rest seq

/-- Embedding of NewRelicLogger._extract_all_messages: request messages
first (sequence starting at 0), then response-choice messages, the
counter continuing where the request loop stopped. -/
def extractAllMessages (rc : Bool) (rm v : String) (st et : Option Int)
    (msgs : List Msg) (choices : List Choice) : List NormalizedMessage :=
  extractReqMessages rc rm v st msgs 0 ++ extractRespMessages rc rm v et choices msgs.length

/-! ### Message events (_record_message_events) -/

/-- Truthiness of an optional string (None and the empty string are
falsy). -/
def strTruthy : Option String → Bool
  | none => false
  | some s => decide (s ≠ "")

/-- Event payload of one LlmChatCompletionMessage event.  Keys that the
source adds conditionally (trace_id, span_id, content, is_response) are
Option-valued or Bool-valued with absence as none or false. -/
structure MessageEvent : Type where
  id : String
  request_id : String
  completion_id : String
  role : String
  sequence : Nat
  response_model : String
  vendor : String
  ingest_source : String
  token_count : Nat
  trace_id : Option String
  span_id : Option String
  content : Option String
  is_response : Bool
  deriving DecidableEq

/-- Loop body of NewRelicLogger._record_message_events: the event id is
the LLM response id plus the sequence number, the agent-generated request
id doubles as completion_id, trace context is attached only when truthy,
content only when the key is present on the message, and is_response only
when truthy. -/
def buildMessageEvent (request_id llm_response_id : String)
    (trace_id span_id : Option String) (m : NormalizedMessage) : MessageEvent :=
  { id := llm_response_id ++ "-" ++ toString m.sequence
    request_id := request_id
    completion_id := request_id
    role := m.role
    sequence := m.sequence
    response_model := m.response_model
    vendor := m.vendor
    ingest_source := "litellm"
    token_count := 0
    trace_id := if strTruthy trace_id then trace_id else none
    span_id := if strTruthy span_id then span_id else none
    content := m.content
    is_response := m.is_response }

/-- Embedding of the event-construction part of _record_message_events
(the per-event sink emission is gated on the sink being enabled but the
payloads are built exactly as listed here). -/
def recordMessageEvents (request_id llm_response_id : String)
    (trace_id span_id : Option String) (msgs : List NormalizedMessage) :
    List MessageEvent :=
  msgs.map (buildMessageEvent request_id llm_response_id trace_id span_id)

/-! ### Loop lemmas for the extraction invariants -/

theorem extractReq_map_seq (rc : Bool) (rm v : String) (st : Option Int)
    (msgs : List Msg) : ∀ s, (extractReqMessages rc rm v st msgs s).map
      (fun m => m.sequence) = List.range' s msgs.length := by
  induction msgs with
  | nil => intro s; simp [extractReqMessages]
  | cons m rest ih =>
    intro s
    simp [extractReqMessages, reqMessageData, ih (s + 1), List.range'_succ]

theorem extractReq_map_role (rc : Bool) (rm v : String) (st : Option Int)
    (msgs : List Msg) : ∀ s, (extractReqMessages rc rm v st msgs s).map
      (fun m => m.role) = msgs.map (fun m => m.role.getD "user") := by
  induction msgs with
  | nil => intro s; simp [extractReqMessages]
  | cons m rest ih =>
    intro s
    simp [extractReqMessages, reqMessageData, ih (s + 1)]

theorem extractReq_not_response (rc : Bool) (rm v : String) (st : Option Int)
    (msgs : List Msg) : ∀ s, (extractReqMessages rc rm v st msgs s).all
      (fun m => m.is_response = false) := by
  induction msgs with
  | nil => intro s; simp [extractReqMessages]
  | cons m rest ih =>
    intro s
    simp only [extractReqMessages, List.all_cons, Bool.and_eq_true]
    exact ⟨by simp [reqMessageData], ih (s + 1)⟩

theorem extractReq_content (rc : Bool) (rm v : String) (st : Option Int)
    (msgs : List Msg) : ∀ s, (extractReqMessages rc rm v st msgs s).all
      (fun m => m.content.isSome == rc) := by
  induction msgs with
  | nil => intro s; simp [extractReqMessages]
  | cons m rest ih =>
    intro s
    simp only [extractReqMessages, List.all_cons, Bool.and_eq_true]
    refine ⟨?_, ih (s + 1)⟩
    by_cases h : rc <;> simp [reqMessageData, h]

theorem extractResp_map_seq (rc : Bool) (rm v : String) (et : Option Int)
    (choices : List Choice) : ∀ s, (extractRespMessages rc rm v et choices s).map
      (fun m => m.sequence)
      = List.range' s (choices.filterMap (fun c => c.message)).length := by
  induction choices with
  | nil => intro s; simp [extractRespMessages]
  | cons c rest ih =>
    intro s
    match h : c.message with
    | some m =>
      simp [extractRespMessages, h, respMessageData, ih (s + 1), List.range'_succ]
    | none =>
      simp [extractRespMessages, h, ih s]

theorem extractResp_map_role (rc : Bool) (rm v : String) (et : Option Int)
    (choices : List Choice) : ∀ s, (extractRespMessages rc rm v et choices s).map
      (fun m => m.role)
      = (choices.filterMap (fun c => c.message)).map
          (fun m => m.role.getD "assistant") := by
  induction choices with
  | nil => intro s; simp [extractRespMessages]
  | cons c rest ih =>
    intro s
    match h : c.message with
    | some m => simp [extractRespMessages, h, respMessageData, ih (s + 1)]
    | none => simp [extractRespMessages, h, ih s]

theorem extractResp_is_response (rc : Bool) (rm v : String) (et : Option Int)
    (choices : List Choice) : ∀ s, (extractRespMessages rc rm v et choices s).all
      (fun m => m.is_response = true) := by
  induction choices with
  | nil => intro s; simp [extractRespMessages]
  | cons c rest ih =>
    intro s
    match h : c.message with
    | some m =>
      simp only [extractRespMessages, h, List.all_cons, Bool.and_eq_true]
      exact ⟨by simp [respMessageData], ih (s + 1)⟩
    | none => simpa [extractRespMessages, h] using ih s

theorem extractResp_content (rc : Bool) (rm v : String) (et : Option Int)
    (choices : List Choice) : ∀ s, (extractRespMessages rc rm v et choices s).all
      (fun m => m.content.isSome == rc) := by
  induction choices with
  | nil => intro s; simp [extractRespMessages]
  | cons c rest ih =>
    intro s
    match h : c.message with
    | some m =>
      simp only [extractRespMessages, h, List.all_cons, Bool.and_eq_true]
      refine ⟨?_, ih (s + 1)⟩
      by_cases hrc : rc <;> simp [respMessageData, hrc]
    | none => simpa [extractRespMessages, h] using ih s

/-! ### Trace context (_get_trace_context) -/

/-- Model of Python str.split with a one-character separator (the code
splits the traceparent header on "-"): "" splits to [""], separators at
the ends produce empty parts. -/
def splitOnChar (sep : Char) : List Char → List (List Char)
  | [] => [[]]
  | c :: r =>
    match splitOnChar sep r with
    | h :: t => if c = sep then [] :: h :: t else (c :: h) :: t
    | [] => [[c]]

/-- Headers read from kwargs.litellm_params.metadata.headers.  The
newrelic header is read by the source but never used (the branch that
would consume it is a pass statement). -/
structure Headers : Type where
  traceparent : Option String
  newrelicHeader : Option String
  deriving DecidableEq

/-- Trace-id assignment of _get_trace_context: a truthy traceparent
header of exactly 4 hyphen-delimited parts yields parts[1], otherwise the
trace id stays None. -/
def traceIdFromHeaders (h : Headers) : Option String :=
  match h.traceparent with
  | none => none
  | some tp =>
    if tp = "" then none
    else
      let parts := splitOnChar '-' tp.toList
      if parts.length = 4 then some (String.mk (parts.getD 1 [])) else none

/-- Embedding of NewRelicLogger._get_trace_context.  span_id is
initialized to None and never assigned on any path; a falsy trace id
leads to the early return (None, None). -/
def getTraceContext (h : Headers) : Option String × Option String :=
  let span_id : Option String := none
  if strTruthy (traceIdFromHeaders h) then (traceIdFromHeaders h, span_id)
  else (none, none)

/-! ### Completion id (_extract_completion_id) -/

/-- Usage block of a response, with possibly missing token counters. -/
structure UsageIn : Type where
  prompt_tokens : Option Int
  completion_tokens : Option Int
  total_tokens : Option Int
  deriving DecidableEq

/-- Model of the response object fields the adapter reads. -/
structure RespObj : Type where
  id : Option String
  model : Option String
  choices : List Choice
  usage : Option UsageIn
  deriving DecidableEq

/-- Completion id taken from the response object: assigned only when the
response object itself is truthy (a falsy response contributes None). -/
def respIdOf (response_obj : Option RespObj) : Option String :=
  match response_obj with
  | some r => r.id
  | none => none

/-- Embedding of NewRelicLogger._extract_completion_id.  The source
initializes completion_id to None, conditionally overwrites it with the
response id, then with kwargs litellm_call_id while it stays falsy, and
finally generates a UUID; that cascade of "if not completion_id" guards
is written here as nested conditionals.  The Bool result records whether
the generated-UUID fallback fired (the path that logs the diagnostic
warning); a falsy id (None or "") falls through to the next source. -/
def extractCompletionId (response_obj : Option RespObj)
    (litellm_call_id : Option String) (freshUuid : String) : String × Bool :=
  if strTruthy (respIdOf response_obj) then
    ((respIdOf response_obj).getD "", false)
  else if strTruthy litellm_call_id then
    (litellm_call_id.getD "", false)
  else
    (freshUuid, true)

/-! ### Usage extraction (_extract_usage) -/

/-- Extracted usage counters (every field defaulted, never missing). -/
structure UsageOut : Type where
  prompt_tokens : Int
  completion_tokens : Int
  total_tokens : Int
  deriving DecidableEq

/-- Embedding of NewRelicLogger._extract_usage: a falsy usage block
yields all-zero counters, otherwise each field is read with default 0.
An empty usage dict is falsy in Python and behaves like the none case. -/
def extractUsage (response_obj : RespObj) : UsageOut :=
  match response_obj.usage with
  | none => ⟨0, 0, 0⟩
  | some u => ⟨u.prompt_tokens.getD 0, u.completion_tokens.getD 0, u.total_tokens.getD 0⟩

/-! ### Redaction policy (NewRelicLogger.__init__ and _parse_bool_env) -/

/-- Model of Python str.lower() (ASCII case folding suffices for the
comparison against "true"). -/
def pyLower (s : String) : String := String.mk (s.toList.map Char.toLower)

/-- Embedding of NewRelicLogger._parse_bool_env: os.getenv defaults a
missing variable to "", a falsy (empty) value yields the default, and any
other value is compared case-insensitively against "true". -/
def parseBoolEnv (value : Option String) (dflt : Bool) : Bool :=
  if value.getD "" = "" then dflt
  else pyLower (value.getD "") == "true"

/-- Embedding of the record_content resolution in NewRelicLogger.__init__:
when the turn_off_message_logging kwarg was supplied its value (stored on
the instance by the CustomLogger initializer) is negated, otherwise the
NEW_RELIC_AI_MONITORING_RECORD_CONTENT_ENABLED environment value is
parsed with default false. -/
def resolveRecordContent (turnOffProvided : Bool) (turnOffValue : Bool)
    (env : Option String) : Bool :=
  if turnOffProvided then !turnOffValue
  else parseBoolEnv env false

/-! ### Heartbeat rate limiter

The shared state is the module-level _last_metric_emission_time guarded by
_metric_lock.  One call to _check_and_emit_periodic_metric reads the clock
up to three times: t1 := time.time() for the lock-free fast-path check,
t2 := time.time() for the double-check inside the mutex, and t3 :=
time.time() as the new value stored by a successful emission; in any
execution t1 ≤ t2 ≤ t3.  The mutex makes the locked section atomic, so a
concurrent history is modelled as a sequence of calls, each seeing the
last-emission timestamp left by the previous emission. -/

def shortThreshold : Int := 3600

def longInterval : Int := 82800

/-- Environment of one emission attempt: whether newrelic.agent.application()
returns an enabled application, and whether the emission body runs to
completion without raising.  A raising application() lookup behaves like a
disabled application (no record, no timestamp update). -/
structure EmitEnv : Type where
  appEnabled : Bool
  emitOk : Bool
  deriving DecidableEq

/-- Embedding of NewRelicLogger._emit_supportability_metric: the result is
the new value of _last_metric_emission_time together with whether a metric
was recorded.  The timestamp is assigned only after record_custom_metric
succeeds; a disabled/absent application or an exception leaves it
unchanged. -/
def emitSupportabilityMetric (env : EmitEnv) (tEmit last : Int) : Int × Bool :=
  if env.appEnabled then
    if env.emitOk then (tEmit, true) else (last, false)
  else (last, false)

/-- Result of one call to _check_and_emit_periodic_metric. -/
structure PeriodicResult : Type where
  newLast : Int
  emitted : Bool
  lockAcquired : Bool
  deriving DecidableEq

/-- Embedding of NewRelicLogger._check_and_emit_periodic_metric: the
lock-free fast path returns when less than shortThreshold elapsed since
the recorded last emission; otherwise the mutex is taken, the elapsed time
is re-checked against the full longInterval, and only then is the metric
emitted. -/
def checkAndEmitPeriodicMetric (t1 t2 t3 : Int) (env : EmitEnv) (last : Int) :
    PeriodicResult :=
  if shortThreshold ≤ t1 - last then
    if longInterval ≤ t2 - last then
      let r := emitSupportabilityMetric env t3 last
      ⟨r.1, r.2, true⟩
    else ⟨last, false, true⟩
  else ⟨last, false, false⟩

/-- One call in a serialized history of heartbeat checks: its three clock
readings and its emission environment. -/
structure CallEvent : Type where
  t1 : Int
  t2 : Int
  t3 : Int
  env : EmitEnv
  deriving DecidableEq

/-- Timestamps recorded by the emissions that occur when the calls run in
order against the shared last-emission state. -/
def runCalls (last : Int) : List CallEvent → List Int
  | [] => []
  | c :: rest =>
    let r := checkAndEmitPeriodicMetric c.t1 c.t2 c.t3 c.env last
    if r.emitted then c.t3 :: runCalls r.newLast rest else runCalls r.newLast rest

/-- Consecutive entries are at least longInterval apart. -/
def Spaced : List Int → Prop
  | [] => True
  | [_] => True
  | a :: b :: r => a + longInterval ≤ b ∧ Spaced (b :: r)

/-! ### Sink calls of the public entry points -/

/-- Calls made to the monitoring sink. -/
inductive SinkCall : Type where
  | customEvent : String → SinkCall
  | customMetric : String → Nat → SinkCall
  deriving DecidableEq

/-- Embedding of NewRelicLogger._record_error_metric: one unconditional
record_custom_metric call (exceptions the sink raises are caught after
the call and only logged). -/
def recordErrorMetric : List SinkCall := [.customMetric "LLM/LiteLLM/Error" 1]

/-- Embedding of NewRelicLogger.log_failure_event (the async variant is
identical): a disabled adapter returns before any sink call, an enabled
one records exactly the error metric. -/
def logFailureEvent (enabled : Bool) : List SinkCall :=
  if enabled then recordErrorMetric else []

/-- Event-kind sink calls (Summary or Message events). -/
def SinkCall.isEvent : SinkCall → Bool
  | .customEvent _ => true
  | .customMetric _ _ => false

/-- Sink calls of _record_summary_event (for contrast with the failure
path): one Summary event when the sink application is enabled. -/
def recordSummaryEventTrace (appEnabled : Bool) : List SinkCall :=
  if appEnabled then [.customEvent "LlmChatCompletionSummary"] else []

/-- Sink calls of _record_message_events: one Message event per
normalized message when the sink application is enabled. -/
def recordMessageEventsTrace (appEnabled : Bool)
    (msgs : List NormalizedMessage) : List SinkCall :=
  if appEnabled then msgs.map (fun _ => .customEvent "LlmChatCompletionMessage") else []

/-! ### Heartbeat lemmas -/

theorem checkAndEmit_emitted_spec (t1 t2 t3 : Int) (env : EmitEnv) (last : Int) :
    (checkAndEmitPeriodicMetric t1 t2 t3 env last).emitted = true →
      longInterval ≤ t2 - last
      ∧ (checkAndEmitPeriodicMetric t1 t2 t3 env last).newLast = t3
      ∧ (checkAndEmitPeriodicMetric t1 t2 t3 env last).lockAcquired = true
      ∧ env.appEnabled = true ∧ env.emitOk = true := by
  rcases env with ⟨ae, eo⟩
  unfold checkAndEmitPeriodicMetric emitSupportabilityMetric
  cases ae <;> cases eo <;> split_ifs <;> simp_all

theorem checkAndEmit_not_emitted_newLast (t1 t2 t3 : Int) (env : EmitEnv) (last : Int) :
    (checkAndEmitPeriodicMetric t1 t2 t3 env last).emitted = false →
      (checkAndEmitPeriodicMetric t1 t2 t3 env last).newLast = last := by
  rcases env with ⟨ae, eo⟩
  unfold checkAndEmitPeriodicMetric emitSupportabilityMetric
  cases ae <;> cases eo <;> split_ifs <;> simp_all

theorem checkAndEmit_fast_path (t1 t2 t3 : Int) (env : EmitEnv) (last : Int) :
    t1 - last < shortThreshold →
      checkAndEmitPeriodicMetric t1 t2 t3 env last = ⟨last, false, false⟩ := by
  intro h
  unfold checkAndEmitPeriodicMetric
  rw [if_neg (by omega)]

theorem spaced_cons (x : Int) (l : List Int)
    (h : ∀ e ∈ l, x + longInterval ≤ e) (hs : Spaced l) : Spaced (x :: l) := by
  match l with
  | [] => exact trivial
  | b :: r => exact ⟨h b (List.mem_cons_self b r), hs⟩

theorem runCalls_spaced (calls : List CallEvent) :
    ∀ last, (∀ c ∈ calls, c.t2 ≤ c.t3) →
      Spaced (runCalls last calls)
      ∧ ∀ e ∈ runCalls last calls, last + longInterval ≤ e := by
  induction calls with
  | nil => intro last _; exact ⟨trivial, by simp [runCalls]⟩
  | cons c rest ih =>
    intro last hc
    have hct : c.t2 ≤ c.t3 := hc c (List.mem_cons_self c rest)
    have hrest : ∀ x ∈ rest, x.t2 ≤ x.t3 := fun x hx => hc x (List.mem_cons_of_mem c hx)
    by_cases he : (checkAndEmitPeriodicMetric c.t1 c.t2 c.t3 c.env last).emitted = true
    · obtain ⟨hlong, hnew, -, -, -⟩ := checkAndEmit_emitted_spec c.t1 c.t2 c.t3 c.env last he
      have hrun : runCalls last (c :: rest) = c.t3 :: runCalls c.t3 rest := by
        simp only [runCalls, he, if_pos, hnew]
      obtain ⟨ihs, ihb⟩ := ih c.t3 hrest
      have hhead : last + longInterval ≤ c.t3 := by omega
      rw [hrun]
      refine ⟨spaced_cons _ _ ihb ihs, ?_⟩
      intro e hmem
      rcases List.mem_cons.mp hmem with rfl | hmem2
      · exact hhead
      · have h2 := ihb e hmem2
        have h3 : (0 : Int) ≤ longInterval := by norm_num [longInterval]
        omega
    · have he2 : (checkAndEmitPeriodicMetric c.t1 c.t2 c.t3 c.env last).emitted = false := by
        simpa using he
      have hnew := checkAndEmit_not_emitted_newLast c.t1 c.t2 c.t3 c.env last he2
      have hrun : runCalls last (c :: rest) = runCalls last rest := by
        simp only [runCalls, he2, if_neg, Bool.false_eq_true, not_false_iff, hnew]
      rw [hrun]
      exact ih last hrest

/-! ### Length lemmas for the extraction loops -/

theorem extractReq_length (rc : Bool) (rm v : String) (st : Option Int)
    (msgs : List Msg) : ∀ s, (extractReqMessages rc rm v st msgs s).length = msgs.length := by
  induction msgs with
  | nil => intro s; simp [extractReqMessages]
  | cons m rest ih => intro s; simp [extractReqMessages, ih (s + 1)]

theorem extractResp_length (rc : Bool) (rm v : String) (et : Option Int)
    (choices : List Choice) : ∀ s, (extractRespMessages rc rm v et choices s).length
      = (choices.filterMap (fun c => c.message)).length := by
  induction choices with
  | nil => intro s; simp [extractRespMessages]
  | cons c rest ih =>
    intro s
    match h : c.message with
    | some m => simp [extractRespMessages, h, ih (s + 1)]
    | none => simp [extractRespMessages, h, ih s]

theorem range_zero_append (L K : Nat) :
    List.range' 0 L ++ List.range' L K = List.range (L + K) := by
  have h := List.range'_append_1 0 L K
  simp only [Nat.zero_add] at h
  rw [h, List.range_eq_range', Nat.add_comm]

/-- C1: for every input (any number of request messages, including zero,
and any number of response choices, including zero or choices lacking a
message), the normalized message list carries sequence numbers exactly
0..n-1, assigned to request messages in their original order followed by
response-choice messages in choice order. -/
theorem claim_C1_sequence_numbers (rc : Bool) (rm v : String) (st et : Option Int)
    (msgs : List Msg) (choices : List Choice) :
    (extractAllMessages rc rm v st et msgs choices).map (fun m => m.sequence)
      = List.range (msgs.length + (choices.filterMap (fun c => c.message)).length)
    ∧ (extractAllMessages rc rm v st et msgs choices).length
      = msgs.length + (choices.filterMap (fun c => c.message)).length
    ∧ ((extractAllMessages rc rm v st et msgs choices).take msgs.length).map
        (fun m => m.role) = msgs.map (fun m => m.role.getD "user")
    ∧ ((extractAllMessages rc rm v st et msgs choices).drop msgs.length).map
        (fun m => m.role)
      = (choices.filterMap (fun c => c.message)).map (fun m => m.role.getD "assistant")
    ∧ ((extractAllMessages rc rm v st et msgs choices).take msgs.length).all
        (fun m => !m.is_response) = true
    ∧ ((extractAllMessages rc rm v st et msgs choices).drop msgs.length).all
        (fun m => m.is_response) = true := by
  have hreqlen := extractReq_length rc rm v st msgs 0
  have htake : (extractAllMessages rc rm v st et msgs choices).take msgs.length
      = extractReqMessages rc rm v st msgs 0 := by
    rw [extractAllMessages, ← hreqlen, List.take_left]
  have hdrop : (extractAllMessages rc rm v st et msgs choices).drop msgs.length
      = extractRespMessages rc rm v et choices msgs.length := by
    rw [extractAllMessages, ← hreqlen, List.drop_left]
  refine ⟨?_, ?_, ?_, ?_, ?_, ?_⟩
  · rw [extractAllMessages, List.map_append, extractReq_map_seq, extractResp_map_seq,
      range_zero_append]
  · rw [extractAllMessages, List.length_append, hreqlen, extractResp_length]
  · rw [htake, extractReq_map_role]
  · rw [hdrop, extractResp_map_role]
  · rw [htake]
    have h := extractReq_not_response rc rm v st msgs 0
    simpa using h
  · rw [hdrop]
    have h := extractResp_is_response rc rm v et choices msgs.length
    simpa using h

/-- C2: for every normalized message and every emitted
LlmChatCompletionMessage event, a content field is present if and only if
the resolved redaction policy allows content, independent of the message
role or content type. -/
theorem claim_C2_content_iff_policy (rc : Bool) (rm v : String) (st et : Option Int)
    (msgs : List Msg) (choices : List Choice) (rid llmid : String)
    (tid sid : Option String) :
    (extractAllMessages rc rm v st et msgs choices).all
        (fun m => m.content.isSome == rc) = true
    ∧ (recordMessageEvents rid llmid tid sid
        (extractAllMessages rc rm v st et msgs choices)).all
        (fun e => e.content.isSome == rc) = true := by
  have hmsgs : (extractAllMessages rc rm v st et msgs choices).all
      (fun m => m.content.isSome == rc) = true := by
    rw [extractAllMessages, List.all_append]
    have h1 := extractReq_content rc rm v st msgs 0
    have h2 := extractResp_content rc rm v et choices msgs.length
    simp_all
  refine ⟨hmsgs, ?_⟩
  rw [recordMessageEvents]
  simpa [List.all_map, Function.comp, buildMessageEvent] using hmsgs

/-- C3 counterexample: a well-formed W3C traceparent header yields a
trace id together with an absent span id — one component present and the
other absent, refuting the simultaneity claim. -/
theorem claim_C3_counterexample :
    (getTraceContext
        ⟨some "00-4bf92f3577b34da6a3ce929d0e0e4736-00f067aa0ba902b7-00", none⟩).1
      = some "4bf92f3577b34da6a3ce929d0e0e4736"
    ∧ (getTraceContext
        ⟨some "00-4bf92f3577b34da6a3ce929d0e0e4736-00f067aa0ba902b7-00", none⟩).2
      = none := by
  constructor <;> rfl

/-- C3 amended: the span id returned by _get_trace_context is always
absent (its recovery is not implemented); consequently the result is
either (some trace-id, none) with a nonempty trace id, or the fully
absent pair (none, none) — and when no trace id is recoverable the result
is exactly (none, none), without blocking event emission. -/
theorem claim_C3_span_always_absent (h : Headers) :
    (getTraceContext h).2 = none
    ∧ ((getTraceContext h).1 = none → getTraceContext h = (none, none))
    ∧ (∀ t, (getTraceContext h).1 = some t → t ≠ "") := by
  unfold getTraceContext
  simp only
  split_ifs with ht
  · refine ⟨rfl, ?_, ?_⟩
    · intro h1
      simp only [Prod.fst] at h1
      rw [h1] at ht
      simp [strTruthy] at ht
    · intro t h1
      simp only [Prod.fst] at h1
      rw [h1] at ht
      simpa [strTruthy] using ht
  · exact ⟨rfl, fun _ => rfl, by simp⟩

/-- C3 witness for the amended theorem: at a header with no traceparent,
the inner hypothesis (an absent trace id) is discharged concretely and
the fully absent pair comes back. -/
theorem claim_C3_span_always_absent_witness :
    getTraceContext ⟨none, none⟩ = (none, none) :=
  (claim_C3_span_always_absent ⟨none, none⟩).2.1 rfl

/-- C4: the lock-free fast path returns without acquiring the mutex and
without emitting when less than the short threshold elapsed; an emission
happens only when the double-checked elapsed time has crossed the full
long interval; a successful emission updates the shared timestamp; and
over any serialized history of calls the recorded emission timestamps are
at least one long interval apart. -/
theorem claim_C4_heartbeat_rate_limit (t1 t2 t3 : Int) (env : EmitEnv)
    (last init : Int) (calls : List CallEvent)
    (hchrono : ∀ c ∈ calls, c.t2 ≤ c.t3) :
    (t1 - last < shortThreshold →
      checkAndEmitPeriodicMetric t1 t2 t3 env last = ⟨last, false, false⟩)
    ∧ ((checkAndEmitPeriodicMetric t1 t2 t3 env last).emitted = true →
        longInterval ≤ t2 - last
        ∧ (checkAndEmitPeriodicMetric t1 t2 t3 env last).newLast = t3)
    ∧ ((checkAndEmitPeriodicMetric t1 t2 t3 env last).emitted = false →
        (checkAndEmitPeriodicMetric t1 t2 t3 env last).newLast = last)
    ∧ Spaced (runCalls init calls) := by
  refine ⟨checkAndEmit_fast_path t1 t2 t3 env last, ?_, ?_, ?_⟩
  · intro he
    obtain ⟨h1, h2, -⟩ := checkAndEmit_emitted_spec t1 t2 t3 env last he
    exact ⟨h1, h2⟩
  · exact checkAndEmit_not_emitted_newLast t1 t2 t3 env last
  · exact (runCalls_spaced calls init hchrono).1

/-- C4 witness: a concrete two-call history in which the first call emits
and the second is rate-limited away. -/
theorem claim_C4_heartbeat_rate_limit_witness :
    ((0 : Int) - 0 < shortThreshold →
      checkAndEmitPeriodicMetric 0 0 0 ⟨true, true⟩ 0 = ⟨0, false, false⟩)
    ∧ ((checkAndEmitPeriodicMetric 0 0 0 ⟨true, true⟩ 0).emitted = true →
        longInterval ≤ 0 - 0
        ∧ (checkAndEmitPeriodicMetric 0 0 0 ⟨true, true⟩ 0).newLast = 0)
    ∧ ((checkAndEmitPeriodicMetric 0 0 0 ⟨true, true⟩ 0).emitted = false →
        (checkAndEmitPeriodicMetric 0 0 0 ⟨true, true⟩ 0).newLast = 0)
    ∧ Spaced (runCalls 0
        [⟨100000, 100000, 100001, ⟨true, true⟩⟩, ⟨100002, 100002, 100003, ⟨true, true⟩⟩]) :=
  claim_C4_heartbeat_rate_limit 0 0 0 ⟨true, true⟩ 0 0
    [⟨100000, 100000, 100001, ⟨true, true⟩⟩, ⟨100002, 100002, 100003, ⟨true, true⟩⟩]
    (by decide)

/-- C5: a failure callback on an enabled adapter performs exactly one
sink call, the increment of the LLM/LiteLLM/Error counter — no Summary
event, no Message events — and a disabled adapter performs none. -/
theorem claim_C5_failure_path :
    logFailureEvent true = [SinkCall.customMetric "LLM/LiteLLM/Error" 1]
    ∧ logFailureEvent false = []
    ∧ ∀ enabled, (logFailureEvent enabled).all (fun c => !c.isEvent) = true := by
  refine ⟨rfl, rfl, ?_⟩
  intro enabled
  cases enabled <;> rfl

/-- C6 counterexample: a usage block reporting prompt 1, completion 1,
total 5 is copied through unchanged, so the extracted total is not the
sum of the extracted parts. -/
theorem claim_C6_counterexample :
    extractUsage ⟨none, none, [], some ⟨some 1, some 1, some 5⟩⟩
      = ⟨1, 1, 5⟩
    ∧ (extractUsage ⟨none, none, [], some ⟨some 1, some 1, some 5⟩⟩).total_tokens
      ≠ (extractUsage ⟨none, none, [], some ⟨some 1, some 1, some 5⟩⟩).prompt_tokens
        + (extractUsage ⟨none, none, [], some ⟨some 1, some 1, some 5⟩⟩).completion_tokens := by
  constructor
  · rfl
  · decide

/-- C6 amended: _extract_usage copies each usage field through with
default 0 for a missing field and yields all-zero counters when the usage
block is absent; the extracted total equals the sum of the extracted
parts exactly when the (defaulted) input fields already satisfy that
relation — the extractor does not enforce it. -/
theorem claim_C6_usage_fields (r : RespObj) :
    (r.usage = none → extractUsage r = ⟨0, 0, 0⟩)
    ∧ (∀ u, r.usage = some u →
        extractUsage r
          = ⟨u.prompt_tokens.getD 0, u.completion_tokens.getD 0, u.total_tokens.getD 0⟩
        ∧ ((extractUsage r).total_tokens
            = (extractUsage r).prompt_tokens + (extractUsage r).completion_tokens
          ↔ u.total_tokens.getD 0 = u.prompt_tokens.getD 0 + u.completion_tokens.getD 0)) := by
  constructor
  · intro h
    rw [extractUsage, h]
  · intro u h
    rw [extractUsage, h]
    exact ⟨rfl, Iff.rfl⟩

/-- C6 witness for the amended theorem: at a response whose usage block
is present with a missing total, the some-branch hypothesis is discharged
concretely and each field is copied with default 0. -/
theorem claim_C6_usage_fields_witness :
    extractUsage ⟨none, none, [], some ⟨some 2, some 3, none⟩⟩ = ⟨2, 3, 0⟩ :=
  ((claim_C6_usage_fields ⟨none, none, [], some ⟨some 2, some 3, none⟩⟩).2
    ⟨some 2, some 3, none⟩ rfl).1

/-- C7: _extract_completion_id returns the response-embedded id when it
is present and truthy; otherwise the gateway-supplied litellm_call_id
when present and truthy; otherwise the freshly generated identifier,
logging a diagnostic warning — and it always returns an identifier. -/
theorem claim_C7_completion_id (response_obj : Option RespObj)
    (litellm_call_id : Option String) (freshUuid : String) :
    (∀ r s, response_obj = some r → r.id = some s → s ≠ "" →
      extractCompletionId response_obj litellm_call_id freshUuid = (s, false))
    ∧ (strTruthy (respIdOf response_obj) = false →
        ∀ s, litellm_call_id = some s → s ≠ "" →
          extractCompletionId response_obj litellm_call_id freshUuid = (s, false))
    ∧ (strTruthy (respIdOf response_obj) = false → strTruthy litellm_call_id = false →
        extractCompletionId response_obj litellm_call_id freshUuid = (freshUuid, true)) := by
  refine ⟨?_, ?_, ?_⟩
  · rintro r s rfl hid hs
    have h1 : respIdOf (some r) = some s := by simp [respIdOf, hid]
    have ht : strTruthy (respIdOf (some r)) = true := by simp [h1, strTruthy, hs]
    unfold extractCompletionId
    rw [if_pos ht, h1]
    rfl
  · intro hfalse s hcall hs
    have ht : strTruthy litellm_call_id = true := by simp [hcall, strTruthy, hs]
    unfold extractCompletionId
    rw [if_neg (by simp [hfalse]), if_pos ht, hcall]
    rfl
  · intro hfalse hcfalse
    unfold extractCompletionId
    rw [if_neg (by simp [hfalse]), if_neg (by simp [hcfalse])]

/-- C7 witness: a response with a truthy embedded id wins over a supplied
call id; each hypothesis is discharged at concrete inputs. -/
theorem claim_C7_completion_id_witness :
    extractCompletionId (some ⟨some "chatcmpl-42", none, [], none⟩)
      (some "call-7") "generated" = ("chatcmpl-42", false) :=
  (claim_C7_completion_id (some ⟨some "chatcmpl-42", none, [], none⟩)
      (some "call-7") "generated").1
    ⟨some "chatcmpl-42", none, [], none⟩ "chatcmpl-42" rfl rfl (by decide)

/-- C8: record_content is fixed at construction: a supplied
turn_off_message_logging parameter is negated; otherwise the environment
default is parsed, with only the case-insensitive literal "true" mapping
to true and every other value — including absence — mapping to false. -/
theorem claim_C8_record_content (p v : Bool) (env : Option String) :
    (p = true → resolveRecordContent p v env = !v)
    ∧ (p = false →
        resolveRecordContent p v env = (pyLower (env.getD "") == "true"))
    ∧ resolveRecordContent false v none = false := by
  refine ⟨?_, ?_, rfl⟩
  · rintro rfl
    rfl
  · rintro rfl
    unfold resolveRecordContent parseBoolEnv
    rw [if_neg (by simp)]
    split_ifs with h
    · rw [h]
      decide
    · rfl

/-- C8 witness: with no parameter supplied and environment value "TRUE",
content recording resolves to true; the parameter branch hypothesis is
discharged concretely. -/
theorem claim_C8_record_content_witness :
    resolveRecordContent false false (some "TRUE") = (pyLower "TRUE" == "true") :=
  (claim_C8_record_content false false (some "TRUE")).2.1 rfl

/-- C9: _extract_message_content serializes a truthy tool_calls payload
to JSON text (which is valid JSON), else serializes list content to JSON,
else returns the empty string for missing/None content, else stringifies
non-string content, else returns string content as is. -/
theorem claim_C9_message_content (m : Msg) :
    (∀ tc, m.tool_calls = some tc → jtruthy tc = true →
      extractMessageContent m = jdumps tc ∧ JsonText (dumpsVal tc))
    ∧ (optTruthy m.tool_calls = false →
        ((m.content = none ∨ m.content = some .jnull) → extractMessageContent m = "")
        ∧ (∀ a, m.content = some (.jarr a) → extractMessageContent m = jdumps (.jarr a))
        ∧ (∀ s, m.content = some (.jstr s) → extractMessageContent m = String.mk s)
        ∧ (∀ b, m.content = some (.jbool b) → extractMessageContent m = pyStr (.jbool b))
        ∧ (∀ n, m.content = some (.jnum n) → extractMessageContent m = pyStr (.jnum n))
        ∧ (∀ o, m.content = some (.jobj o) → extractMessageContent m = pyStr (.jobj o))) := by
  constructor
  · intro tc htc hj
    have hopt : optTruthy m.tool_calls = true := by rw [htc]; simpa [optTruthy] using hj
    refine ⟨?_, jsonText_dumpsVal tc⟩
    unfold extractMessageContent
    rw [if_pos hopt, htc]
  · intro hopt
    have hneg : ¬(optTruthy m.tool_calls = true) := by simp [hopt]
    refine ⟨?_, ?_, ?_, ?_, ?_, ?_⟩
    · rintro (h | h) <;> · unfold extractMessageContent; rw [if_neg hneg, h]
    · intro a h
      unfold extractMessageContent
      rw [if_neg hneg, h]
    · intro s h
      unfold extractMessageContent
      rw [if_neg hneg, h]
    · intro b h
      unfold extractMessageContent
      rw [if_neg hneg, h]
    · intro n h
      unfold extractMessageContent
      rw [if_neg hneg, h]
    · intro o h
      unfold extractMessageContent
      rw [if_neg hneg, h]

/-- C9 witness: a concrete tool_calls payload (a one-element array
holding an object) is serialized by _extract_message_content to its
json.dumps rendering, and that rendering is valid JSON text; both
hypotheses are discharged concretely. -/
theorem claim_C9_message_content_witness :
    extractMessageContent
        ⟨some "assistant", none,
          some (.jarr (.cons (.jobj (.cons "id".toList (.jstr "call_1".toList) .nil)) .nil))⟩
      = jdumps (.jarr (.cons (.jobj (.cons "id".toList (.jstr "call_1".toList) .nil)) .nil))
    ∧ JsonText (dumpsVal
        (.jarr (.cons (.jobj (.cons "id".toList (.jstr "call_1".toList) .nil)) .nil))) :=
  (claim_C9_message_content
      ⟨some "assistant", none,
        some (.jarr (.cons (.jobj (.cons "id".toList (.jstr "call_1".toList) .nil)) .nil))⟩).1
    (.jarr (.cons (.jobj (.cons "id".toList (.jstr "call_1".toList) .nil)) .nil))
    rfl (by decide)

/-- C10: a skipped emission (sink application absent or disabled) and a
failed emission (exception) leave the shared last-emission timestamp
unchanged and report not-emitted, and a rate-limiter call that did not
emit leaves the timestamp unchanged — so the next call sees the old
timestamp and retries instead of being rate-limited away. -/
theorem claim_C10_timestamp_only_on_recorded (env : EmitEnv)
    (tEmit last t1 t2 t3 : Int) :
    ((env.appEnabled = false ∨ env.emitOk = false) →
      emitSupportabilityMetric env tEmit last = (last, false))
    ∧ ((emitSupportabilityMetric env tEmit last).2 = false →
        (emitSupportabilityMetric env tEmit last).1 = last)
    ∧ ((checkAndEmitPeriodicMetric t1 t2 t3 env last).emitted = false →
        (checkAndEmitPeriodicMetric t1 t2 t3 env last).newLast = last) := by
  refine ⟨?_, ?_, checkAndEmit_not_emitted_newLast t1 t2 t3 env last⟩
  · rcases env with ⟨ae, eo⟩
    rintro (h | h) <;> simp only at h <;> subst h <;>
      simp [emitSupportabilityMetric]
  · rcases env with ⟨ae, eo⟩
    cases ae <;> cases eo <;> simp [emitSupportabilityMetric]

/-- C10 witness: with the sink application disabled the timestamp 7 is
left unchanged; the hypothesis is discharged concretely. -/
theorem claim_C10_timestamp_only_on_recorded_witness :
    emitSupportabilityMetric ⟨false, true⟩ 11 7 = (7, false) :=
  (claim_C10_timestamp_only_on_recorded ⟨false, true⟩ 11 7 0 0 0).1 (Or.inl rfl)
